/-
Verification of the bouncearena backend core against its specification.

The definitions below are shallow embeddings of the TypeScript source:
  * MatchmakingService.ts  (ranked/unranked queues, expiry)
  * GameManager.ts         (match lifecycle, tick physics, delta broadcast)
  * elo rating module      (expected score, rating deltas, K-factors)

JavaScript `number` arithmetic is modelled as exact arithmetic: over ℚ where
the code only compares, rounds, adds and multiplies rationals, and over ℝ where
trigonometric functions and real exponentials occur.  Timestamps (Date.now(),
queuedAt) are modelled as integers in milliseconds.  JS Math.floor is Int.fdiv,
and JS Math.round x is Int.floor (x + 1/2).
-/
import Mathlib

namespace BounceArena

/-! ### Matchmaking: data model (MatchmakingService.ts) -/

/-- Queue class: ranked or unranked pool. -/
inductive QueueType where
  | ranked
  | unranked
deriving DecidableEq, Repr

/-- An entry waiting in a matchmaking queue (QueuedPlayer in types.ts). -/
structure QueuedPlayer where
  socketId : String
  wallet : String
  rating : ℤ
  queuedAt : ℤ
  queueType : QueueType
deriving DecidableEq, Repr

/-- The two queues held by MatchmakingService. -/
structure MMState where
  rankedQueue : List QueuedPlayer
  unrankedQueue : List QueuedPlayer
deriving DecidableEq, Repr

def MATCH_TIMEOUT : ℤ := 60000
def RATING_RANGE_INITIAL : ℤ := 100
def RATING_RANGE_MAX : ℤ := 500
def RATING_EXPAND_INTERVAL : ℤ := 10000

/-- Search radius of a queued player at time `now`:
`Math.min(RATING_RANGE_INITIAL + Math.floor(waitTime / RATING_EXPAND_INTERVAL) * 50, RATING_RANGE_MAX)`. -/
def expandedRange (now : ℤ) (p : QueuedPlayer) : ℤ :=
  min (RATING_RANGE_INITIAL + (Int.fdiv (now - p.queuedAt) RATING_EXPAND_INTERVAL) * 50)
    RATING_RANGE_MAX

/-- One step of the best-candidate scan inside findRankedOpponent: skip entries
with the player's own wallet; accept a candidate if the rating difference is
within the joining player's expanded range AND the candidate's own expanded
range AND strictly beats the best difference so far. -/
def considerOpponent (now : ℤ) (player : QueuedPlayer)
    (best : Option (QueuedPlayer × ℤ)) (opp : QueuedPlayer) : Option (QueuedPlayer × ℤ) :=
  if opp.wallet = player.wallet then best
  else
    if |opp.rating - player.rating| ≤ expandedRange now player then
      if |opp.rating - player.rating| ≤ expandedRange now opp then
        -- bestDiff starts at Infinity, so an empty accumulator is always beaten
        if best.all (fun b => |opp.rating - player.rating| < b.2) then
          some (opp, |opp.rating - player.rating|)
        else best
      else best
    else best

/-- Scan the ranked queue for the closest-rated opponent within both sides'
expanded ranges (findRankedOpponent). -/
def findRankedOpponent (now : ℤ) (queue : List QueuedPlayer) (player : QueuedPlayer) :
    Option QueuedPlayer :=
  if queue.isEmpty then none
  else (queue.foldl (considerOpponent now player) none).map Prod.fst

/-- Predicate: `opp` is an acceptable ranked candidate for `player` at time
`now` (different wallet, rating difference within both expanded ranges). -/
def rankedCandidateOK (now : ℤ) (player opp : QueuedPlayer) : Prop :=
  opp.wallet ≠ player.wallet ∧
    |opp.rating - player.rating| ≤ expandedRange now player ∧
    |opp.rating - player.rating| ≤ expandedRange now opp

instance (now : ℤ) (player opp : QueuedPlayer) : Decidable (rankedCandidateOK now player opp) := by
  unfold rankedCandidateOK; infer_instance

/-- addToRankedQueue: match and remove the found opponent (indexOf + splice
removes its first occurrence, List.erase), otherwise push the new entry. -/
def addToRankedQueue (now : ℤ) (st : MMState) (player : QueuedPlayer) :
    Option QueuedPlayer × MMState :=
  match findRankedOpponent now st.rankedQueue player with
  | some opp => (some opp, { st with rankedQueue := st.rankedQueue.erase opp })
  | none => (none, { st with rankedQueue := st.rankedQueue ++ [player] })

/-- Remove the first element satisfying `pred`, returning it; models
findIndex followed by splice(index, 1) on a JS array. -/
def removeFirstSat (pred : QueuedPlayer → Bool) : List QueuedPlayer →
    Option QueuedPlayer × List QueuedPlayer
  | [] => (none, [])
  | a :: rest =>
    if pred a then (some a, rest)
    else
      let r := removeFirstSat pred rest
      (r.1, a :: r.2)

/-- addToUnrankedQueue: pair with the first waiting entry of a different
wallet, removing it; otherwise push the new entry. -/
def addToUnrankedQueue (now : ℤ) (st : MMState) (player : QueuedPlayer) :
    Option QueuedPlayer × MMState :=
  match removeFirstSat (fun q => q.wallet ≠ player.wallet) st.unrankedQueue with
  | (some opp, rest) => (some opp, { st with unrankedQueue := rest })
  | (none, _) => (none, { st with unrankedQueue := st.unrankedQueue ++ [player] })

/-- addToQueue dispatches on the queue class. -/
def addToQueue (now : ℤ) (st : MMState) (player : QueuedPlayer) :
    Option QueuedPlayer × MMState :=
  match player.queueType with
  | .ranked => addToRankedQueue now st player
  | .unranked => addToUnrankedQueue now st player

/-- removeFromQueue: drop the entry with the given socket id from the ranked
queue if present, otherwise from the unranked queue. -/
def removeFromQueue (st : MMState) (socketId : String) : Bool × MMState :=
  let r := removeFirstSat (fun q => q.socketId = socketId) st.rankedQueue
  match r.1 with
  | some _ => (true, { st with rankedQueue := r.2 })
  | none =>
    let u := removeFirstSat (fun q => q.socketId = socketId) st.unrankedQueue
    match u.1 with
    | some _ => (true, { st with unrankedQueue := u.2 })
    | none => (false, st)

/-- Expiry test used by cleanupExpiredPlayers: waited strictly more than
MATCH_TIMEOUT milliseconds. -/
def isExpired (now : ℤ) (p : QueuedPlayer) : Bool :=
  decide (MATCH_TIMEOUT < now - p.queuedAt)

/-- One pass of Array.filter with a side callback: returns the kept entries in
order and the rejected (timed-out) entries in callback-invocation order. -/
def filterWithCallback (expired : QueuedPlayer → Bool) :
    List QueuedPlayer → List QueuedPlayer × List QueuedPlayer
  | [] => ([], [])
  | p :: rest =>
    let r := filterWithCallback expired rest
    if expired p then (r.1, p :: r.2) else (p :: r.1, r.2)

/-- cleanupExpiredPlayers: filter both queues, reporting each removed entry to
the timeout callback (ranked queue first, then unranked). -/
def cleanupExpiredPlayers (now : ℤ) (st : MMState) : MMState × List QueuedPlayer :=
  let r := filterWithCallback (isExpired now) st.rankedQueue
  let u := filterWithCallback (isExpired now) st.unrankedQueue
  (⟨r.1, u.1⟩, r.2 ++ u.2)

/-! ### Rating engine (elo module, src/unnamed/part_000) -/

/-- Modelled from the spec: the PLACEMENT_GAMES threshold is imported from the
repository's game/types module, which is not among the source files; the spec
fixes its default at 10 ("Multiplier is 64 while a side's placementCount is
below the threshold (default 10), else 32"). -/
def PLACEMENT_GAMES : ℕ := 10

def K_FACTOR_STANDARD : ℝ := 32
def K_FACTOR_PLACEMENT : ℝ := 64

/-- K-factor of one side, from its placement-game count:
`placementGames < PLACEMENT_GAMES ? K_FACTOR_PLACEMENT : K_FACTOR_STANDARD`. -/
noncomputable def kFactor (placementGames : ℕ) : ℝ :=
  if placementGames < PLACEMENT_GAMES then K_FACTOR_PLACEMENT else K_FACTOR_STANDARD

/-- calculateExpectedScore: `1 / (1 + 10 ^ ((opponentRating - playerRating) / 400))`. -/
noncomputable def calculateExpectedScore (playerRating opponentRating : ℝ) : ℝ :=
  1 / (1 + (10 : ℝ) ^ ((opponentRating - playerRating) / 400))

/-- JS Math.round: round half toward positive infinity. -/
noncomputable def jsRound (x : ℝ) : ℤ := ⌊x + 1 / 2⌋

/-- calculateEloChange: winner change is the rounded K·(1 − expected) floored
at +1, loser change is the rounded K·(0 − expected) ceilinged at −1. -/
noncomputable def calculateEloChange (winnerRating loserRating : ℝ)
    (winnerPlacementGames loserPlacementGames : ℕ) : ℤ × ℤ :=
  (max (jsRound (kFactor winnerPlacementGames *
      (1 - calculateExpectedScore winnerRating loserRating))) 1,
   min (jsRound (kFactor loserPlacementGames *
      (0 - calculateExpectedScore loserRating winnerRating))) (-1))

/-! ### Game state and delta broadcast (GameManager.ts) -/

/-- Per-match simulation state (GameState in types.ts), over an arbitrary
number type: ℝ for the physics, ℚ for exact evaluation of the delta logic. -/
structure GameState (α : Type) where
  ballX : α
  ballY : α
  ballVelX : α
  ballVelY : α
  ballSpeed : α
  player1PaddleY : α
  player2PaddleY : α
  player1Score : ℕ
  player2Score : ℕ
  gameStarted : Bool
  countdown : ℤ
  isCountingDown : Bool
deriving DecidableEq

/-- A Partial game-state broadcast: each field present only when changed. -/
structure DeltaState (α : Type) where
  ballX : Option α
  ballY : Option α
  ballVelX : Option α
  ballVelY : Option α
  ballSpeed : Option α
  player1PaddleY : Option α
  player2PaddleY : Option α
  player1Score : Option ℕ
  player2Score : Option ℕ
  gameStarted : Option Bool
  countdown : Option ℤ
  isCountingDown : Option Bool
deriving DecidableEq

/-- The delta sent when nothing changed. -/
def emptyDelta (α : Type) : DeltaState α :=
  ⟨none, none, none, none, none, none, none, none, none, none, none, none⟩

/-- The full snapshot sent on the first tick. -/
def fullDelta {α : Type} (s : GameState α) : DeltaState α :=
  ⟨some s.ballX, some s.ballY, some s.ballVelX, some s.ballVelY, some s.ballSpeed,
   some s.player1PaddleY, some s.player2PaddleY, some s.player1Score, some s.player2Score,
   some s.gameStarted, some s.countdown, some s.isCountingDown⟩

/-- Rounding used by the delta comparison: `Math.round(n * 100) / 100`. -/
def round2 {α : Type} [LinearOrderedField α] [FloorRing α] (x : α) : α :=
  ((⌊x * 100 + 1 / 2⌋ : ℤ) : α) / 100

/-- createDeltaState: with no cached snapshot, the full state; otherwise each
continuous field is included iff its 2-decimal rounding changed, each
discrete/boolean field iff its value changed. -/
def createDeltaState {α : Type} [LinearOrderedField α] [FloorRing α] [DecidableEq α]
    (previousState : Option (GameState α)) (currentState : GameState α) : DeltaState α :=
  match previousState with
  | none => fullDelta currentState
  | some prev =>
    { ballX := if round2 currentState.ballX ≠ round2 prev.ballX then some currentState.ballX else none
      ballY := if round2 currentState.ballY ≠ round2 prev.ballY then some currentState.ballY else none
      ballVelX := if round2 currentState.ballVelX ≠ round2 prev.ballVelX then some currentState.ballVelX else none
      ballVelY := if round2 currentState.ballVelY ≠ round2 prev.ballVelY then some currentState.ballVelY else none
      ballSpeed := if round2 currentState.ballSpeed ≠ round2 prev.ballSpeed then some currentState.ballSpeed else none
      player1PaddleY := if round2 currentState.player1PaddleY ≠ round2 prev.player1PaddleY then some currentState.player1PaddleY else none
      player2PaddleY := if round2 currentState.player2PaddleY ≠ round2 prev.player2PaddleY then some currentState.player2PaddleY else none
      player1Score := if currentState.player1Score ≠ prev.player1Score then some currentState.player1Score else none
      player2Score := if currentState.player2Score ≠ prev.player2Score then some currentState.player2Score else none
      gameStarted := if currentState.gameStarted ≠ prev.gameStarted then some currentState.gameStarted else none
      countdown := if currentState.countdown ≠ prev.countdown then some currentState.countdown else none
      isCountingDown := if currentState.isCountingDown ≠ prev.isCountingDown then some currentState.isCountingDown else none }

/-! ### Match physics (GameManager.updateGameState, over ℝ) -/

noncomputable section

def CANVAS_WIDTH : ℝ := 800
def CANVAS_HEIGHT : ℝ := 450
def BALL_SIZE : ℝ := 12
def PADDLE_WIDTH : ℝ := 10
def PADDLE_HEIGHT : ℝ := 80
def PADDLE_OFFSET : ℝ := 30
def BALL_SPEED_INITIAL : ℝ := 3
def BALL_SPEED_MAX : ℝ := 12
def BALL_SPEED_INCREASE : ℝ := 3 / 10
def SCORE_TO_WIN : ℕ := 11

/-- Integrate the ball by its velocity. -/
def moveBall (s : GameState ℝ) : GameState ℝ :=
  { s with ballX := s.ballX + s.ballVelX, ballY := s.ballY + s.ballVelY }

/-- Top/bottom wall collision: reflect the vertical velocity and clamp the
ball inside the canvas. -/
def wallBounce (s : GameState ℝ) : GameState ℝ :=
  if s.ballY < 0 ∨ s.ballY + BALL_SIZE > CANVAS_HEIGHT then
    { s with ballVelY := -s.ballVelY,
             ballY := if s.ballY < 0 then 0 else CANVAS_HEIGHT - BALL_SIZE }
  else s

/-- Guard of the player-1 (left) paddle branch: ball moving left, inside the
paddle's x band and overlapping its y band. -/
def leftPaddleCond (s : GameState ℝ) : Prop :=
  s.ballVelX < 0 ∧
    s.ballX ≤ PADDLE_OFFSET + PADDLE_WIDTH ∧
    s.ballX + BALL_SIZE ≥ PADDLE_OFFSET ∧
    s.ballY + BALL_SIZE ≥ s.player1PaddleY ∧
    s.ballY ≤ s.player1PaddleY + PADDLE_HEIGHT

/-- Guard of the player-2 (right) paddle branch. -/
def rightPaddleCond (s : GameState ℝ) : Prop :=
  s.ballVelX > 0 ∧
    s.ballX + BALL_SIZE ≥ CANVAS_WIDTH - PADDLE_OFFSET - PADDLE_WIDTH ∧
    s.ballX ≤ CANVAS_WIDTH - PADDLE_OFFSET ∧
    s.ballY + BALL_SIZE ≥ s.player2PaddleY ∧
    s.ballY ≤ s.player2PaddleY + PADDLE_HEIGHT

/-- Impact offset along the left paddle's height:
`(ballY + BALL_SIZE / 2 - player1PaddleY) / PADDLE_HEIGHT`. -/
def leftHitPos (s : GameState ℝ) : ℝ :=
  (s.ballY + BALL_SIZE / 2 - s.player1PaddleY) / PADDLE_HEIGHT

/-- Launch angle off the left paddle: `(hitPos - 0.5) * (π / 3)`. -/
def leftAngle (s : GameState ℝ) : ℝ := (leftHitPos s - 1 / 2) * (Real.pi / 3)

/-- Impact offset along the right paddle's height. -/
def rightHitPos (s : GameState ℝ) : ℝ :=
  (s.ballY + BALL_SIZE / 2 - s.player2PaddleY) / PADDLE_HEIGHT

/-- Launch angle off the right paddle. -/
def rightAngle (s : GameState ℝ) : ℝ := (rightHitPos s - 1 / 2) * (Real.pi / 3)

/-- Body of the left-paddle branch: bump the speed (capped), relaunch at the
impact angle with positive horizontal velocity, and push the ball flush
against the paddle face. -/
def leftPaddleHit (s : GameState ℝ) : GameState ℝ :=
  let newSpeed := min (s.ballSpeed + BALL_SPEED_INCREASE) BALL_SPEED_MAX
  { s with ballSpeed := newSpeed,
           ballVelX := |Real.cos (leftAngle s) * newSpeed|,
           ballVelY := Real.sin (leftAngle s) * newSpeed,
           ballX := PADDLE_OFFSET + PADDLE_WIDTH }

/-- Body of the right-paddle branch: as on the left, with negative horizontal
velocity and the ball pushed to the paddle's left face. -/
def rightPaddleHit (s : GameState ℝ) : GameState ℝ :=
  let newSpeed := min (s.ballSpeed + BALL_SPEED_INCREASE) BALL_SPEED_MAX
  { s with ballSpeed := newSpeed,
           ballVelX := -|Real.cos (rightAngle s) * newSpeed|,
           ballVelY := Real.sin (rightAngle s) * newSpeed,
           ballX := CANVAS_WIDTH - PADDLE_OFFSET - PADDLE_WIDTH - BALL_SIZE }

instance (s : GameState ℝ) : Decidable (leftPaddleCond s) := by
  unfold leftPaddleCond; infer_instance

instance (s : GameState ℝ) : Decidable (rightPaddleCond s) := by
  unfold rightPaddleCond; infer_instance

def applyLeftPaddle (s : GameState ℝ) : GameState ℝ :=
  if leftPaddleCond s then leftPaddleHit s else s

def applyRightPaddle (s : GameState ℝ) : GameState ℝ :=
  if rightPaddleCond s then rightPaddleHit s else s

/-- resetBall: recentre the ball at initial speed, serve toward the given
side at the random angle `a`, and re-enter the countdown. -/
def resetBall (a : ℝ) (serveToPlayer1 : Bool) (s : GameState ℝ) : GameState ℝ :=
  { s with ballX := CANVAS_WIDTH / 2,
           ballY := CANVAS_HEIGHT / 2,
           ballVelX := Real.cos a * BALL_SPEED_INITIAL * (if serveToPlayer1 then -1 else 1),
           ballVelY := Real.sin a * BALL_SPEED_INITIAL,
           ballSpeed := BALL_SPEED_INITIAL,
           gameStarted := false,
           isCountingDown := true,
           countdown := 3 }

/-- Scoring check: past the left edge the right player (player 2) scores and
the ball is served toward player 1; symmetric past the right edge. -/
def applyScoring (a : ℝ) (s : GameState ℝ) : GameState ℝ :=
  if s.ballX < 0 then
    resetBall a true { s with player2Score := s.player2Score + 1 }
  else if s.ballX > CANVAS_WIDTH then
    resetBall a false { s with player1Score := s.player1Score + 1 }
  else s

/-- One physics step of the tick: integration, wall bounce, both paddle
branches, then the scoring check, in source order. -/
def updatePhysics (a : ℝ) (s : GameState ℝ) : GameState ℝ :=
  applyScoring a (applyRightPaddle (applyLeftPaddle (wallBounce (moveBall s))))

/-- updateGameState: during the countdown accumulate ticks (decrementing the
countdown every 60, starting play at 0) and skip physics; once started, run
the physics step.  `a` stands for the serve angle Math.random would draw. -/
def updateGameState (a : ℝ) (countdownTicks : ℕ) (s : GameState ℝ) : ℕ × GameState ℝ :=
  if s.isCountingDown && !s.gameStarted then
    let ct := countdownTicks + 1
    if ct ≥ 60 then
      let s' := { s with countdown := s.countdown - 1 }
      if s'.countdown ≤ 0 then
        (0, { s' with gameStarted := true, isCountingDown := false })
      else (0, s')
    else (ct, s)
  else if !s.gameStarted then (countdownTicks, s)
  else (countdownTicks, updatePhysics a s)

/-! ### Match lifecycle (GameManager.ts) -/

/-- A participant slot of a match. -/
structure Player where
  socketId : String
  wallet : String
  rating : ℤ
deriving DecidableEq

inductive MatchStatus where
  | waiting
  | active
  | completed
  | cancelled
deriving DecidableEq, Repr

/-- A match record as stored by GameManager (cosmetic loadout omitted: no
claim concerns it and the core never reads it). -/
structure Match where
  id : String
  player1 : Player
  player2 : Option Player
  queueType : QueueType
  gameState : GameState ℝ
  createdAt : ℤ
  status : MatchStatus
  winner : Option String
  countdownTicks : ℕ

/-- The GameManager's match table, as an association list keyed by match id. -/
def MatchStore : Type := List (String × Match)

def lookupMatch (store : MatchStore) (matchId : String) : Option Match :=
  (List.find? (fun kv => kv.1 = matchId) store).map Prod.snd

/-- joinMatch: null (and no mutation) when the match is missing, already has a
second player, or is not waiting; otherwise record player 2 and activate. -/
def joinMatch (store : MatchStore) (matchId : String)
    (player2SocketId player2Wallet : String) (player2Rating : ℤ) :
    Option Match × MatchStore :=
  match lookupMatch store matchId with
  | none => (none, store)
  | some m =>
    if m.player2.isSome ∨ m.status ≠ MatchStatus.waiting then (none, store)
    else
      let m' := { m with player2 := some ⟨player2SocketId, player2Wallet, player2Rating⟩,
                         status := MatchStatus.active }
      (some m', store.map (fun kv => if kv.1 = matchId then (kv.1, m') else kv))

/-- Outcome of one firing of the interval callback installed by startGameLoop. -/
inductive LoopResult where
  /-- The match is missing or no longer active: the loop self-terminates and
  drops its cached snapshot; nothing is broadcast. -/
  | stopped
  /-- A player reached SCORE_TO_WIN: the match is completed with that winner,
  the loop stops and onEnd fires; nothing is broadcast. -/
  | ended (m : Match) (winnerWallet : String)
  /-- The non-null assertion on player2 failed (unreachable for matches made
  active by joinMatch). -/
  | crashed
  /-- Normal tick: onUpdate fires with the delta and the snapshot is cached. -/
  | broadcast (m : Match) (delta : DeltaState ℝ) (newCache : GameState ℝ)

/-- One firing of the game-loop interval for a match: bail out unless the
match exists and is active, advance the state, end the match if a score
reached SCORE_TO_WIN (player 1 checked first), else broadcast the delta. -/
def gameLoopTick (a : ℝ) (matchLookup : Option Match) (prev : Option (GameState ℝ)) :
    LoopResult :=
  match matchLookup with
  | none => .stopped
  | some m =>
    if m.status ≠ MatchStatus.active then .stopped
    else
      if (updateGameState a m.countdownTicks m.gameState).2.player1Score ≥ SCORE_TO_WIN then
        .ended
          { m with countdownTicks := (updateGameState a m.countdownTicks m.gameState).1,
                   gameState := (updateGameState a m.countdownTicks m.gameState).2,
                   winner := some m.player1.wallet, status := MatchStatus.completed }
          m.player1.wallet
      else if (updateGameState a m.countdownTicks m.gameState).2.player2Score ≥ SCORE_TO_WIN then
        match m.player2 with
        | some p2 =>
          .ended
            { m with countdownTicks := (updateGameState a m.countdownTicks m.gameState).1,
                     gameState := (updateGameState a m.countdownTicks m.gameState).2,
                     winner := some p2.wallet, status := MatchStatus.completed }
            p2.wallet
        | none => .crashed
      else
        .broadcast
          { m with countdownTicks := (updateGameState a m.countdownTicks m.gameState).1,
                   gameState := (updateGameState a m.countdownTicks m.gameState).2 }
          (createDeltaState prev (updateGameState a m.countdownTicks m.gameState).2)
          (updateGameState a m.countdownTicks m.gameState).2

end

/-! ### Helper lemmas -/

/-- Unfolding filterWithCallback: the kept entries are the filter by the
negated test, the reported entries the filter by the test. -/
theorem filterWithCallback_eq (f : QueuedPlayer → Bool) (l : List QueuedPlayer) :
    filterWithCallback f l = (l.filter (fun p => !f p), l.filter f) := by
  induction l with
  | nil => rfl
  | cons p rest ih =>
    unfold filterWithCallback
    rw [ih]
    by_cases h : f p <;> simp [h, List.filter_cons]

/-- One scan step succeeds exactly when the accumulator already held a best
candidate or the scanned entry is an acceptable candidate. -/
theorem considerOpponent_isSome (now : ℤ) (player : QueuedPlayer)
    (best : Option (QueuedPlayer × ℤ)) (opp : QueuedPlayer) :
    (considerOpponent now player best opp).isSome ↔
      best.isSome ∨ rankedCandidateOK now player opp := by
  rcases best with _ | b <;>
    · unfold considerOpponent rankedCandidateOK
      split_ifs <;> simp_all [Option.all]

/-- Folding the scan step over a queue succeeds exactly when the accumulator
already held a candidate or some queue entry is acceptable. -/
theorem foldl_considerOpponent_isSome (now : ℤ) (player : QueuedPlayer)
    (l : List QueuedPlayer) :
    ∀ best, (l.foldl (considerOpponent now player) best).isSome ↔
      best.isSome ∨ ∃ opp ∈ l, rankedCandidateOK now player opp := by
  induction l with
  | nil => intro best; simp
  | cons a l ih =>
    intro best
    rw [List.foldl_cons, ih, considerOpponent_isSome]
    simp only [List.mem_cons]
    constructor
    · rintro ((h | h) | ⟨x, hx, hok⟩)
      · exact Or.inl h
      · exact Or.inr ⟨a, Or.inl rfl, h⟩
      · exact Or.inr ⟨x, Or.inr hx, hok⟩
    · rintro (h | ⟨x, rfl | hx, hok⟩)
      · exact Or.inl (Or.inl h)
      · exact Or.inl (Or.inr hok)
      · exact Or.inr ⟨x, hx, hok⟩

/-- A candidate produced by one scan step never carries the joining player's
own wallet (entries with the same wallet are skipped). -/
theorem considerOpponent_wallet (now : ℤ) (player : QueuedPlayer)
    (best : Option (QueuedPlayer × ℤ)) (opp : QueuedPlayer) (c : QueuedPlayer × ℤ)
    (hb : ∀ x, best = some x → x.1.wallet ≠ player.wallet)
    (h : considerOpponent now player best opp = some c) : c.1.wallet ≠ player.wallet := by
  unfold considerOpponent at h
  split_ifs at h with h1 h2 h3 h4 <;> first
    | (injection h with h; subst h; exact h1)
    | (exact hb c h)

/-- Any candidate produced by the fold has a wallet different from the joining
player's. -/
theorem foldl_considerOpponent_wallet (now : ℤ) (player : QueuedPlayer)
    (l : List QueuedPlayer) :
    ∀ best b, (∀ x, best = some x → x.1.wallet ≠ player.wallet) →
      l.foldl (considerOpponent now player) best = some b → b.1.wallet ≠ player.wallet := by
  induction l with
  | nil => intro best b hb h; exact hb b h
  | cons a l ih =>
    intro best b hb h
    exact ih _ b (fun c hc => considerOpponent_wallet now player best a c hb hc) h

/-- A ranked opponent found for `player` never has the player's own wallet. -/
theorem findRankedOpponent_wallet (now : ℤ) (q : List QueuedPlayer)
    (player opp : QueuedPlayer) (h : findRankedOpponent now q player = some opp) :
    opp.wallet ≠ player.wallet := by
  unfold findRankedOpponent at h
  by_cases he : q.isEmpty
  · rw [if_pos he] at h; cases h
  · rw [if_neg he] at h
    obtain ⟨b, hb, hfst⟩ := Option.map_eq_some'.mp h
    have hw := foldl_considerOpponent_wallet now player q none b (by intro x hx; cases hx) hb
    rw [← hfst]
    exact hw

/-- The first element removed by removeFirstSat satisfies the test. -/
theorem removeFirstSat_pred (pred : QueuedPlayer → Bool) (l : List QueuedPlayer) :
    ∀ a, (removeFirstSat pred l).1 = some a → pred a = true := by
  induction l with
  | nil => intro a h; cases h
  | cons x rest ih =>
    intro a h
    unfold removeFirstSat at h
    split_ifs at h with hx
    · injection h with h; subst h; exact hx
    · exact ih a h

/-! ### Claims -/

/-- Claim C1: ranked enqueue pairs the joining player with a waiting opponent
exactly when some waiting entry of a different wallet has a rating difference
within both sides' current search radii; each radius is
min(100 + 50·floor(secondsWaited/10), 500); players rated 1000 and 1040 pair
immediately, while 1000 vs 1300 pairs exactly when both sides have waited at
least 40 seconds. -/
theorem C1_ranked_pairing :
    (∀ (now : ℤ) (q : List QueuedPlayer) (p : QueuedPlayer),
        (findRankedOpponent now q p).isSome ↔ ∃ opp ∈ q, rankedCandidateOK now p opp) ∧
      (∀ (now : ℤ) (st : MMState) (p : QueuedPlayer),
        (addToRankedQueue now st p).1 = findRankedOpponent now st.rankedQueue p) ∧
      (∀ (now : ℤ) (p : QueuedPlayer),
        expandedRange now p =
          min (100 + 50 * Int.fdiv (Int.fdiv (now - p.queuedAt) 1000) 10) 500) ∧
      (findRankedOpponent 0 [⟨"s2", "w2", 1040, 0, QueueType.ranked⟩]
          ⟨"s1", "w1", 1000, 0, QueueType.ranked⟩ =
        some ⟨"s2", "w2", 1040, 0, QueueType.ranked⟩) ∧
      (∀ t w1 w2 : ℤ, 0 ≤ w1 → 0 ≤ w2 →
        ((findRankedOpponent t [⟨"s2", "w2", 1300, t - w2, QueueType.ranked⟩]
            ⟨"s1", "w1", 1000, t - w1, QueueType.ranked⟩).isSome ↔
          40000 ≤ w1 ∧ 40000 ≤ w2)) := by
  have hiff : ∀ (now : ℤ) (q : List QueuedPlayer) (p : QueuedPlayer),
      (findRankedOpponent now q p).isSome ↔ ∃ opp ∈ q, rankedCandidateOK now p opp := by
    intro now q p
    unfold findRankedOpponent
    by_cases he : q.isEmpty
    · rw [if_pos he, List.isEmpty_iff.mp he]
      simp
    · rw [if_neg he, Option.isSome_map', foldl_considerOpponent_isSome]
      simp
  refine ⟨hiff, ?_, ?_, ?_, ?_⟩
  · intro now st p
    unfold addToRankedQueue
    rcases h : findRankedOpponent now st.rankedQueue p <;> simp [h]
  · intro now p
    unfold expandedRange RATING_RANGE_INITIAL RATING_RANGE_MAX RATING_EXPAND_INTERVAL
    rw [Int.fdiv_eq_ediv _ (by norm_num), Int.fdiv_eq_ediv _ (by norm_num),
      Int.fdiv_eq_ediv _ (by norm_num)]
    omega
  · decide
  · intro t w1 w2 hw1 hw2
    rw [hiff]
    have hsub1 : t - (t - w1) = w1 := by ring
    have hsub2 : t - (t - w2) = w2 := by ring
    simp only [List.mem_singleton, exists_eq_left, rankedCandidateOK, expandedRange,
      RATING_RANGE_INITIAL, RATING_RANGE_MAX, RATING_EXPAND_INTERVAL, hsub1, hsub2]
    rw [Int.fdiv_eq_ediv _ (by norm_num), Int.fdiv_eq_ediv _ (by norm_num)]
    have habs : |(1300 : ℤ) - 1000| = 300 := by norm_num
    rw [habs]
    constructor
    · rintro ⟨-, h1, h2⟩
      constructor <;> omega
    · rintro ⟨h1, h2⟩
      refine ⟨by decide, ?_, ?_⟩ <;> omega

/-- Witness for C1: two players rated 1000 and 1300 who have each waited
exactly 40 seconds are paired. -/
theorem C1_ranked_pairing_witness :
    (findRankedOpponent 100000 [⟨"s2", "w2", 1300, 60000, QueueType.ranked⟩]
      ⟨"s1", "w1", 1000, 60000, QueueType.ranked⟩).isSome := by
  have h := (C1_ranked_pairing.2.2.2.2 100000 40000 40000 (by norm_num) (by norm_num)).mpr
    ⟨le_refl _, le_refl _⟩
  norm_num at h
  exact h

/-- Claim C7 fails on the code: nothing stops the same wallet from being
enqueued twice, so after two ranked enqueues of wallet "wal" the ranked queue
holds two entries for that wallet. -/
theorem C7_counterexample :
    ((addToQueue 0 (addToQueue 0 ⟨[], []⟩ ⟨"sockA", "wal", 1000, 0, QueueType.ranked⟩).2
        ⟨"sockB", "wal", 1000, 0, QueueType.ranked⟩).2.rankedQueue.countP
      (fun q => q.wallet = "wal")) = 2 := by decide

/-- Claim C7 amended: the queues may hold several entries per wallet; what the
code does guarantee is that an enqueue never pairs a player with an entry
bearing the player's own wallet (self-matching is forbidden). -/
theorem C7_amended_no_self_match (now : ℤ) (st : MMState) (p opp : QueuedPlayer)
    (h : (addToQueue now st p).1 = some opp) : opp.wallet ≠ p.wallet := by
  unfold addToQueue at h
  rcases hq : p.queueType with _ | _ <;> rw [hq] at h
  · unfold addToRankedQueue at h
    rcases hf : findRankedOpponent now st.rankedQueue p <;> rw [hf] at h
    · cases h
    · injection h with h
      subst h
      exact findRankedOpponent_wallet now st.rankedQueue p _ hf
  · unfold addToUnrankedQueue at h
    rcases hr : removeFirstSat (fun q => q.wallet ≠ p.wallet) st.unrankedQueue with ⟨r1, rest⟩
    rw [hr] at h
    rcases r1 with _ | a
    · cases h
    · injection h with h
      subst h
      have hfst : (removeFirstSat (fun q => q.wallet ≠ p.wallet) st.unrankedQueue).1 = some a := by
        rw [hr]
      have hp := removeFirstSat_pred (fun q => q.wallet ≠ p.wallet) st.unrankedQueue a hfst
      simpa using hp

/-- Witness for C7's amended statement: a joining player with wallet "w2" is
paired with the waiting entry of wallet "w1", and the wallets differ. -/
theorem C7_amended_no_self_match_witness :
    ((addToQueue 0 ⟨[⟨"s1", "w1", 1000, 0, QueueType.ranked⟩], []⟩
        ⟨"s2", "w2", 1000, 0, QueueType.ranked⟩).1 =
      some ⟨"s1", "w1", 1000, 0, QueueType.ranked⟩) ∧ ("w1" : String) ≠ "w2" :=
  ⟨by decide,
   C7_amended_no_self_match 0 ⟨[⟨"s1", "w1", 1000, 0, QueueType.ranked⟩], []⟩
     ⟨"s2", "w2", 1000, 0, QueueType.ranked⟩ ⟨"s1", "w1", 1000, 0, QueueType.ranked⟩
     (by decide)⟩

/-- Claim C10: for all ratings a and b, expectedScore(a,b) + expectedScore(b,a)
equals 1 exactly (the code's two calls use opposite rating differences, so the
two logistic terms are complementary). -/
theorem C10_expectedScore_sum (a b : ℝ) :
    calculateExpectedScore a b + calculateExpectedScore b a = 1 := by
  unfold calculateExpectedScore
  have h10 : (0 : ℝ) < 10 := by norm_num
  have key : (a - b) / 400 = -((b - a) / 400) := by ring
  rw [key, Real.rpow_neg h10.le]
  have htpos : 0 < (10 : ℝ) ^ ((b - a) / 400) := Real.rpow_pos_of_pos h10 _
  have h1 : 1 + (10 : ℝ) ^ ((b - a) / 400) ≠ 0 := by positivity
  have h2 : 1 + ((10 : ℝ) ^ ((b - a) / 400))⁻¹ ≠ 0 := by positivity
  field_simp
  ring

/-- Claim C5: for every winner rating, loser rating and placement counts, the
rating-delta computation returns winnerChange = round(winnerK × (1 − E)) floored
at +1 and loserChange = round(loserK × (0 − E')) ceilinged at −1; hence
winnerChange ≥ 1 and loserChange ≤ −1. -/
theorem C5_eloChange_bounds (wr lr : ℝ) (wp lp : ℕ) :
    (calculateEloChange wr lr wp lp).1 =
        max (jsRound (kFactor wp * (1 - calculateExpectedScore wr lr))) 1 ∧
      (calculateEloChange wr lr wp lp).2 =
        min (jsRound (kFactor lp * (0 - calculateExpectedScore lr wr))) (-1) ∧
      1 ≤ (calculateEloChange wr lr wp lp).1 ∧
      (calculateEloChange wr lr wp lp).2 ≤ -1 :=
  ⟨rfl, rfl, le_max_right _ _, min_le_right _ _⟩

/-- Claim C6: a side's K-factor is 64 exactly when its placement count is
strictly below the threshold 10, and 32 otherwise. -/
theorem C6_kFactor_iff (n : ℕ) : (kFactor n = 64 ↔ n < 10) ∧ (kFactor n = 32 ↔ ¬n < 10) := by
  by_cases h : n < 10 <;>
    norm_num [kFactor, K_FACTOR_PLACEMENT, K_FACTOR_STANDARD, PLACEMENT_GAMES, h]

/-- Witness for C6 at placement counts 5 and 10. -/
theorem C6_kFactor_iff_witness : kFactor 5 = 64 ∧ kFactor 10 = 32 :=
  ⟨(C6_kFactor_iff 5).1.mpr (by norm_num), (C6_kFactor_iff 10).2.mpr (by norm_num)⟩

/-- Claim C8: expiring at time `now` keeps exactly the entries waiting at most
60s, reports exactly the entries waiting more than 60s (ranked then unranked,
one callback per removed entry), and an expired entry is reported exactly as
often as it occurs in the queues. -/
theorem C8_cleanup_expired (now : ℤ) (st : MMState) :
    (cleanupExpiredPlayers now st).1.rankedQueue =
        st.rankedQueue.filter (fun p => !isExpired now p) ∧
      (cleanupExpiredPlayers now st).1.unrankedQueue =
        st.unrankedQueue.filter (fun p => !isExpired now p) ∧
      (cleanupExpiredPlayers now st).2 =
        st.rankedQueue.filter (isExpired now) ++ st.unrankedQueue.filter (isExpired now) ∧
      (∀ p, p ∈ (cleanupExpiredPlayers now st).2 ↔
        ((p ∈ st.rankedQueue ∨ p ∈ st.unrankedQueue) ∧ MATCH_TIMEOUT < now - p.queuedAt)) ∧
      (∀ p, MATCH_TIMEOUT < now - p.queuedAt →
        (cleanupExpiredPlayers now st).2.count p =
          st.rankedQueue.count p + st.unrankedQueue.count p) ∧
      (∀ p, ¬MATCH_TIMEOUT < now - p.queuedAt → (cleanupExpiredPlayers now st).2.count p = 0) := by
  unfold cleanupExpiredPlayers
  rw [filterWithCallback_eq, filterWithCallback_eq]
  refine ⟨rfl, rfl, rfl, ?_, ?_, ?_⟩
  · intro p
    simp only [List.mem_append, List.mem_filter, isExpired, decide_eq_true_eq]
    tauto
  · intro p hp
    rw [List.count_append, List.count_filter, List.count_filter] <;>
      simp [isExpired, hp]
  · intro p hp
    rw [List.count_append]
    have h1 : p ∉ st.rankedQueue.filter (isExpired now) := by
      simp [List.mem_filter, isExpired, hp]
    have h2 : p ∉ st.unrankedQueue.filter (isExpired now) := by
      simp [List.mem_filter, isExpired, hp]
    rw [List.count_eq_zero.mpr h1, List.count_eq_zero.mpr h2]

/-- Witness for C8: a single ranked entry that has waited 61s is removed and
reported exactly once. -/
theorem C8_cleanup_expired_witness :
    (cleanupExpiredPlayers 61000
        ⟨[⟨"s1", "w1", 1000, 0, QueueType.ranked⟩], []⟩).2.count
      ⟨"s1", "w1", 1000, 0, QueueType.ranked⟩ = 1 :=
  ((C8_cleanup_expired 61000
      ⟨[⟨"s1", "w1", 1000, 0, QueueType.ranked⟩], []⟩).2.2.2.2.1
    ⟨"s1", "w1", 1000, 0, QueueType.ranked⟩ (by decide)).trans (by decide)

/-- Bounds on the launch angle (hitPos − 1/2)·(π/3) used by both paddle
branches: for hitPos in the geometrically possible band [−3/40, 43/40] the
angle stays strictly inside (−π/2, π/2), and for hitPos in [0, 1] it stays
within ±π/6, i.e. ±30° from horizontal. -/
theorem launchAngle_bounds (hp : ℝ) (h1 : -(3 / 40) ≤ hp) (h2 : hp ≤ 43 / 40) :
    |(hp - 1 / 2) * (Real.pi / 3)| < Real.pi / 2 ∧
      (0 ≤ hp → hp ≤ 1 → |(hp - 1 / 2) * (Real.pi / 3)| ≤ Real.pi / 6) := by
  have hpi := Real.pi_pos
  have hpi3 : (0 : ℝ) < Real.pi / 3 := by linarith
  have habs : |(hp - 1 / 2) * (Real.pi / 3)| = |hp - 1 / 2| * (Real.pi / 3) := by
    rw [abs_mul, abs_of_pos hpi3]
  constructor
  · rw [habs]
    have hb : |hp - 1 / 2| ≤ 23 / 40 := abs_le.mpr ⟨by linarith, by linarith⟩
    calc |hp - 1 / 2| * (Real.pi / 3) ≤ 23 / 40 * (Real.pi / 3) :=
          mul_le_mul_of_nonneg_right hb (by positivity)
      _ < Real.pi / 2 := by nlinarith
  · intro h0 hone
    rw [habs]
    have hb : |hp - 1 / 2| ≤ 1 / 2 := abs_le.mpr ⟨by linarith, by linarith⟩
    calc |hp - 1 / 2| * (Real.pi / 3) ≤ 1 / 2 * (Real.pi / 3) :=
          mul_le_mul_of_nonneg_right hb (by positivity)
      _ = Real.pi / 6 := by ring

/-- Geometric band of the left impact offset: the collision guard forces
hitPos into [−3/40, 43/40]. -/
theorem leftHitPos_band (s : GameState ℝ) (hc : leftPaddleCond s) :
    -(3 / 40) ≤ leftHitPos s ∧ leftHitPos s ≤ 43 / 40 := by
  obtain ⟨-, -, -, h4, h5⟩ := hc
  unfold leftHitPos
  norm_num [BALL_SIZE, PADDLE_HEIGHT] at h4 h5 ⊢
  constructor
  · rw [le_div_iff (by norm_num : (0 : ℝ) < 80)]
    linarith
  · rw [div_le_iff (by norm_num : (0 : ℝ) < 80)]
    linarith

/-- Geometric band of the right impact offset. -/
theorem rightHitPos_band (s : GameState ℝ) (hc : rightPaddleCond s) :
    -(3 / 40) ≤ rightHitPos s ∧ rightHitPos s ≤ 43 / 40 := by
  obtain ⟨-, -, -, h4, h5⟩ := hc
  unfold rightHitPos
  norm_num [BALL_SIZE, PADDLE_HEIGHT] at h4 h5 ⊢
  constructor
  · rw [le_div_iff (by norm_num : (0 : ℝ) < 80)]
    linarith
  · rw [div_le_iff (by norm_num : (0 : ℝ) < 80)]
    linarith

/-- Claim C2 fails on the code: at the extreme impact offset 1 (ball centre at
the paddle's bottom edge) the outgoing vertical velocity is sin(π/6)·speed,
i.e. a 30° launch, not the sin(π/3)·speed a ±60° range would give: the code's
angle is (offset − 0.5)·(π/3), spanning ±30° over offsets in [0, 1]. -/
theorem C2_counterexample :
    leftPaddleCond ⟨35, 174, -3, 0, 3, 100, 185, 0, 0, true, 0, false⟩ ∧
      leftHitPos ⟨35, 174, -3, 0, 3, 100, 185, 0, 0, true, 0, false⟩ = 1 ∧
      (applyLeftPaddle ⟨35, 174, -3, 0, 3, 100, 185, 0, 0, true, 0, false⟩).ballVelY =
        Real.sin (Real.pi / 6) * (33 / 10) ∧
      Real.sin (Real.pi / 6) * (33 / 10) ≠ Real.sin (Real.pi / 3) * (33 / 10) := by
  have hc : leftPaddleCond ⟨35, 174, -3, 0, 3, 100, 185, 0, 0, true, 0, false⟩ := by
    unfold leftPaddleCond PADDLE_OFFSET PADDLE_WIDTH BALL_SIZE PADDLE_HEIGHT
    norm_num
  have hpos : leftHitPos ⟨35, 174, -3, 0, 3, 100, 185, 0, 0, true, 0, false⟩ = 1 := by
    unfold leftHitPos BALL_SIZE PADDLE_HEIGHT
    norm_num
  refine ⟨hc, hpos, ?_, ?_⟩
  · rw [applyLeftPaddle, if_pos hc]
    unfold leftPaddleHit
    have hang : leftAngle ⟨35, 174, -3, 0, 3, 100, 185, 0, 0, true, 0, false⟩ =
        Real.pi / 6 := by
      unfold leftAngle
      rw [hpos]
      ring
    simp only [hang]
    norm_num [BALL_SPEED_INCREASE, BALL_SPEED_MAX, min_eq_left]
  · intro heq
    have h33 : (33 / 10 : ℝ) ≠ 0 := by norm_num
    have hsin := mul_right_cancel₀ h33 heq
    rw [Real.sin_pi_div_six, Real.sin_pi_div_three] at hsin
    have hroot : (1 : ℝ) < Real.sqrt 3 := by
      nlinarith [Real.sq_sqrt (show (0 : ℝ) ≤ 3 by norm_num), Real.sqrt_nonneg 3]
    nlinarith

/-- Claim C2 amended: whenever a paddle branch fires, the outgoing speed is
min(previous + 0.3, 12), the outgoing velocity is the launch angle
(offset − 0.5)·(π/3) — up to ±30° from horizontal for offsets in [0, 1], not
±60° — applied at that speed, the horizontal component points strictly away
from the struck paddle, and the ball is repositioned flush against the paddle
face. -/
theorem C2_paddle_hit (s : GameState ℝ) :
    (leftPaddleCond s → 0 ≤ s.ballSpeed →
      (applyLeftPaddle s).ballSpeed = min (s.ballSpeed + BALL_SPEED_INCREASE) BALL_SPEED_MAX ∧
      (applyLeftPaddle s).ballVelX =
        |Real.cos (leftAngle s) * min (s.ballSpeed + BALL_SPEED_INCREASE) BALL_SPEED_MAX| ∧
      (applyLeftPaddle s).ballVelY =
        Real.sin (leftAngle s) * min (s.ballSpeed + BALL_SPEED_INCREASE) BALL_SPEED_MAX ∧
      (applyLeftPaddle s).ballX = PADDLE_OFFSET + PADDLE_WIDTH ∧
      0 < (applyLeftPaddle s).ballVelX ∧
      (0 ≤ leftHitPos s → leftHitPos s ≤ 1 → |leftAngle s| ≤ Real.pi / 6)) ∧
    (rightPaddleCond s → 0 ≤ s.ballSpeed →
      (applyRightPaddle s).ballSpeed = min (s.ballSpeed + BALL_SPEED_INCREASE) BALL_SPEED_MAX ∧
      (applyRightPaddle s).ballVelX =
        -|Real.cos (rightAngle s) * min (s.ballSpeed + BALL_SPEED_INCREASE) BALL_SPEED_MAX| ∧
      (applyRightPaddle s).ballVelY =
        Real.sin (rightAngle s) * min (s.ballSpeed + BALL_SPEED_INCREASE) BALL_SPEED_MAX ∧
      (applyRightPaddle s).ballX = CANVAS_WIDTH - PADDLE_OFFSET - PADDLE_WIDTH - BALL_SIZE ∧
      (applyRightPaddle s).ballVelX < 0 ∧
      (0 ≤ rightHitPos s → rightHitPos s ≤ 1 → |rightAngle s| ≤ Real.pi / 6)) := by
  have hns : ∀ sp : ℝ, 0 ≤ sp → 0 < min (sp + BALL_SPEED_INCREASE) BALL_SPEED_MAX := by
    intro sp hsp
    unfold BALL_SPEED_INCREASE BALL_SPEED_MAX
    exact lt_min (by linarith) (by norm_num)
  constructor
  · intro hc hsp
    have hband := leftHitPos_band s hc
    have hangle := launchAngle_bounds (leftHitPos s) hband.1 hband.2
    have hlt : -(Real.pi / 2) < leftAngle s ∧ leftAngle s < Real.pi / 2 := by
      have h := abs_lt.mp hangle.1
      unfold leftAngle
      exact ⟨h.1, h.2⟩
    have hcos : 0 < Real.cos (leftAngle s) := Real.cos_pos_of_mem_Ioo ⟨hlt.1, hlt.2⟩
    have hmin := hns s.ballSpeed hsp
    have hkey : applyLeftPaddle s = leftPaddleHit s := by
      rw [applyLeftPaddle, if_pos hc]
    refine ⟨by rw [hkey]; rfl, by rw [hkey]; rfl, by rw [hkey]; rfl, by rw [hkey]; rfl, ?_, ?_⟩
    · rw [hkey]
      show 0 < |Real.cos (leftAngle s) * min (s.ballSpeed + BALL_SPEED_INCREASE) BALL_SPEED_MAX|
      exact abs_pos.mpr (ne_of_gt (mul_pos hcos hmin))
    · intro h0 h1
      exact hangle.2 h0 h1
  · intro hc hsp
    have hband := rightHitPos_band s hc
    have hangle := launchAngle_bounds (rightHitPos s) hband.1 hband.2
    have hlt : -(Real.pi / 2) < rightAngle s ∧ rightAngle s < Real.pi / 2 := by
      have h := abs_lt.mp hangle.1
      unfold rightAngle
      exact ⟨h.1, h.2⟩
    have hcos : 0 < Real.cos (rightAngle s) := Real.cos_pos_of_mem_Ioo ⟨hlt.1, hlt.2⟩
    have hmin := hns s.ballSpeed hsp
    have hkey : applyRightPaddle s = rightPaddleHit s := by
      rw [applyRightPaddle, if_pos hc]
    refine ⟨by rw [hkey]; rfl, by rw [hkey]; rfl, by rw [hkey]; rfl, by rw [hkey]; rfl, ?_, ?_⟩
    · rw [hkey]
      show -|Real.cos (rightAngle s) * min (s.ballSpeed + BALL_SPEED_INCREASE) BALL_SPEED_MAX| < 0
      exact neg_neg_of_pos (abs_pos.mpr (ne_of_gt (mul_pos hcos hmin)))
    · intro h0 h1
      exact hangle.2 h0 h1

/-- Witness for C2's amended statement: a centre hit on the left paddle
(impact offset 1/2) satisfies the branch guard, and the theorem's conclusions
hold there. -/
theorem C2_paddle_hit_witness :
    (applyLeftPaddle ⟨38, 139, -2, 0, 4, 105, 185, 0, 0, true, 0, false⟩).ballSpeed =
        min ((4 : ℝ) + BALL_SPEED_INCREASE) BALL_SPEED_MAX ∧
      0 < (applyLeftPaddle ⟨38, 139, -2, 0, 4, 105, 185, 0, 0, true, 0, false⟩).ballVelX := by
  have h := (C2_paddle_hit
    (⟨38, 139, -2, 0, 4, 105, 185, 0, 0, true, 0, false⟩ : GameState ℝ)).1
    (by unfold leftPaddleCond PADDLE_OFFSET PADDLE_WIDTH BALL_SIZE PADDLE_HEIGHT
        norm_num)
    (by norm_num)
  exact ⟨h.1, h.2.2.2.2.1⟩

/-- Integration followed by the wall bounce leaves the horizontal data and
the scores untouched. -/
theorem wallBounce_moveBall_fields (s : GameState ℝ) :
    (wallBounce (moveBall s)).ballX = s.ballX + s.ballVelX ∧
      (wallBounce (moveBall s)).ballVelX = s.ballVelX ∧
      (wallBounce (moveBall s)).player1Score = s.player1Score ∧
      (wallBounce (moveBall s)).player2Score = s.player2Score := by
  unfold wallBounce moveBall
  split_ifs <;> exact ⟨rfl, rfl, rfl, rfl⟩

/-- When the integrated ball is past the left edge, neither paddle branch can
fire and the physics step scores for player 2, serving toward player 1. -/
theorem updatePhysics_cross_left (a : ℝ) (s : GameState ℝ)
    (hx : s.ballX + s.ballVelX < 0) :
    updatePhysics a s =
      resetBall a true
        { wallBounce (moveBall s) with
            player2Score := (wallBounce (moveBall s)).player2Score + 1 } := by
  obtain ⟨htx, -, -, -⟩ := wallBounce_moveBall_fields s
  unfold updatePhysics
  have hL : ¬leftPaddleCond (wallBounce (moveBall s)) := by
    intro hc
    have h3 := hc.2.2.1
    rw [htx] at h3
    norm_num [BALL_SIZE, PADDLE_OFFSET] at h3
    linarith
  have hR : ¬rightPaddleCond (wallBounce (moveBall s)) := by
    intro hc
    have h2 := hc.2.1
    rw [htx] at h2
    norm_num [BALL_SIZE, CANVAS_WIDTH, PADDLE_OFFSET, PADDLE_WIDTH] at h2
    linarith
  rw [applyLeftPaddle, if_neg hL, applyRightPaddle, if_neg hR, applyScoring,
    if_pos (show (wallBounce (moveBall s)).ballX < 0 by rw [htx]; exact hx)]

/-- When the integrated ball is past the right edge, neither paddle branch can
fire and the physics step scores for player 1, serving toward player 2. -/
theorem updatePhysics_cross_right (a : ℝ) (s : GameState ℝ)
    (hx : s.ballX + s.ballVelX > 800) :
    updatePhysics a s =
      resetBall a false
        { wallBounce (moveBall s) with
            player1Score := (wallBounce (moveBall s)).player1Score + 1 } := by
  obtain ⟨htx, -, -, -⟩ := wallBounce_moveBall_fields s
  unfold updatePhysics
  have hL : ¬leftPaddleCond (wallBounce (moveBall s)) := by
    intro hc
    have h3 := hc.2.1
    rw [htx] at h3
    norm_num [PADDLE_OFFSET, PADDLE_WIDTH] at h3
    linarith
  have hR : ¬rightPaddleCond (wallBounce (moveBall s)) := by
    intro hc
    have h3 := hc.2.2.1
    rw [htx] at h3
    norm_num [CANVAS_WIDTH, PADDLE_OFFSET] at h3
    linarith
  rw [applyLeftPaddle, if_neg hL, applyRightPaddle, if_neg hR, applyScoring,
    if_neg (show ¬(wallBounce (moveBall s)).ballX < 0 by rw [htx]; linarith),
    if_pos (show (wallBounce (moveBall s)).ballX > CANVAS_WIDTH by
      rw [htx]; norm_num [CANVAS_WIDTH]; linarith)]

/-- On a started state the tick skips the countdown block and runs physics. -/
theorem updateGameState_started (a : ℝ) (cd : ℕ) (s : GameState ℝ)
    (hg : s.gameStarted = true) : updateGameState a cd s = (cd, updatePhysics a s) := by
  unfold updateGameState
  simp [hg]

/-- Claim C3: a playing tick whose integrated ball passes the left edge adds
exactly 1 to the right player's score and recentres the ball at speed 3 with a
fresh countdown of 3, served toward the left (losing) player; symmetrically at
the right edge; when a score reaches 11 the loop tick completes the match with
exactly that player as winner and broadcasts nothing; ticks on missing or
non-active matches stop the loop and broadcast nothing. -/
theorem C3_scoring_and_completion :
    (∀ (a : ℝ) (cd : ℕ) (s : GameState ℝ), s.gameStarted = true →
      s.ballX + s.ballVelX < 0 →
      (updateGameState a cd s).2.player2Score = s.player2Score + 1 ∧
      (updateGameState a cd s).2.player1Score = s.player1Score ∧
      (updateGameState a cd s).2.ballX = 400 ∧
      (updateGameState a cd s).2.ballY = 225 ∧
      (updateGameState a cd s).2.ballSpeed = 3 ∧
      (updateGameState a cd s).2.countdown = 3 ∧
      (updateGameState a cd s).2.gameStarted = false ∧
      (updateGameState a cd s).2.isCountingDown = true ∧
      (updateGameState a cd s).2.ballVelY = Real.sin a * 3 ∧
      (|a| ≤ Real.pi / 8 → (updateGameState a cd s).2.ballVelX < 0)) ∧
    (∀ (a : ℝ) (cd : ℕ) (s : GameState ℝ), s.gameStarted = true →
      s.ballX + s.ballVelX > 800 →
      (updateGameState a cd s).2.player1Score = s.player1Score + 1 ∧
      (updateGameState a cd s).2.player2Score = s.player2Score ∧
      (updateGameState a cd s).2.ballX = 400 ∧
      (updateGameState a cd s).2.ballY = 225 ∧
      (updateGameState a cd s).2.ballSpeed = 3 ∧
      (updateGameState a cd s).2.countdown = 3 ∧
      (updateGameState a cd s).2.gameStarted = false ∧
      (updateGameState a cd s).2.isCountingDown = true ∧
      (updateGameState a cd s).2.ballVelY = Real.sin a * 3 ∧
      (|a| ≤ Real.pi / 8 → 0 < (updateGameState a cd s).2.ballVelX)) ∧
    (∀ (a : ℝ) (m : Match) (prev : Option (GameState ℝ)),
      m.status = MatchStatus.active →
      (updateGameState a m.countdownTicks m.gameState).2.player1Score ≥ SCORE_TO_WIN →
      gameLoopTick a (some m) prev =
        LoopResult.ended
          { m with countdownTicks := (updateGameState a m.countdownTicks m.gameState).1,
                   gameState := (updateGameState a m.countdownTicks m.gameState).2,
                   winner := some m.player1.wallet, status := MatchStatus.completed }
          m.player1.wallet) ∧
    (∀ (a : ℝ) (m : Match) (prev : Option (GameState ℝ)) (p2 : Player),
      m.status = MatchStatus.active → m.player2 = some p2 →
      (updateGameState a m.countdownTicks m.gameState).2.player1Score < SCORE_TO_WIN →
      (updateGameState a m.countdownTicks m.gameState).2.player2Score ≥ SCORE_TO_WIN →
      gameLoopTick a (some m) prev =
        LoopResult.ended
          { m with countdownTicks := (updateGameState a m.countdownTicks m.gameState).1,
                   gameState := (updateGameState a m.countdownTicks m.gameState).2,
                   winner := some p2.wallet, status := MatchStatus.completed }
          p2.wallet) ∧
    (∀ (a : ℝ) (m : Match) (prev : Option (GameState ℝ)),
      m.status ≠ MatchStatus.active →
      gameLoopTick a (some m) prev = LoopResult.stopped) ∧
    (∀ (a : ℝ) (prev : Option (GameState ℝ)),
      gameLoopTick a none prev = LoopResult.stopped) := by
  have hserve : ∀ a : ℝ, |a| ≤ Real.pi / 8 → 0 < Real.cos a := by
    intro a ha
    have hpi := Real.pi_pos
    have h := abs_le.mp ha
    exact Real.cos_pos_of_mem_Ioo ⟨by linarith, by linarith⟩
  refine ⟨?_, ?_, ?_, ?_, ?_, ?_⟩
  · intro a cd s hg hx
    rw [updateGameState_started a cd s hg]
    have hsc := (wallBounce_moveBall_fields s).2.2
    rw [show (cd, updatePhysics a s).2 = updatePhysics a s from rfl,
      updatePhysics_cross_left a s hx]
    refine ⟨?_, ?_, ?_, ?_, ?_, ?_, ?_, ?_, ?_, ?_⟩
    · show (wallBounce (moveBall s)).player2Score + 1 = s.player2Score + 1
      rw [hsc.2]
    · show (wallBounce (moveBall s)).player1Score = s.player1Score
      exact hsc.1
    · show CANVAS_WIDTH / 2 = 400
      norm_num [CANVAS_WIDTH]
    · show CANVAS_HEIGHT / 2 = 225
      norm_num [CANVAS_HEIGHT]
    · rfl
    · rfl
    · rfl
    · rfl
    · show Real.sin a * BALL_SPEED_INITIAL = Real.sin a * 3
      rfl
    · intro ha
      have hcos := hserve a ha
      show Real.cos a * BALL_SPEED_INITIAL * (-1 : ℝ) < 0
      unfold BALL_SPEED_INITIAL
      nlinarith
  · intro a cd s hg hx
    rw [updateGameState_started a cd s hg]
    have hsc := (wallBounce_moveBall_fields s).2.2
    rw [show (cd, updatePhysics a s).2 = updatePhysics a s from rfl,
      updatePhysics_cross_right a s hx]
    refine ⟨?_, ?_, ?_, ?_, ?_, ?_, ?_, ?_, ?_, ?_⟩
    · show (wallBounce (moveBall s)).player1Score + 1 = s.player1Score + 1
      rw [hsc.1]
    · show (wallBounce (moveBall s)).player2Score = s.player2Score
      exact hsc.2
    · show CANVAS_WIDTH / 2 = 400
      norm_num [CANVAS_WIDTH]
    · show CANVAS_HEIGHT / 2 = 225
      norm_num [CANVAS_HEIGHT]
    · rfl
    · rfl
    · rfl
    · rfl
    · show Real.sin a * BALL_SPEED_INITIAL = Real.sin a * 3
      rfl
    · intro ha
      have hcos := hserve a ha
      show 0 < Real.cos a * BALL_SPEED_INITIAL * (1 : ℝ)
      unfold BALL_SPEED_INITIAL
      nlinarith
  · intro a m prev hst hscore
    simp only [gameLoopTick]
    rw [if_neg (by rw [hst]; exact fun h => h rfl), if_pos hscore]
  · intro a m prev p2 hst hp2 hlt hscore
    simp only [gameLoopTick]
    rw [if_neg (by rw [hst]; exact fun h => h rfl), if_neg (not_le.mpr hlt), if_pos hscore,
      hp2]
  · intro a m prev hst
    simp only [gameLoopTick]
    rw [if_pos hst]
  · intro a prev
    rfl

/-- Witness for C3: on a concrete playing state at serve angle 0 whose ball
passes the left edge, the right player's score becomes 0 + 1 and the ball is
recentred with a fresh countdown. -/
theorem C3_scoring_and_completion_witness :
    (updateGameState 0 0 (⟨1, 225, -2, 0, 3, 185, 185, 0, 0, true, 0, false⟩ :
        GameState ℝ)).2.player2Score = 0 + 1 ∧
      (updateGameState 0 0 (⟨1, 225, -2, 0, 3, 185, 185, 0, 0, true, 0, false⟩ :
        GameState ℝ)).2.ballX = 400 ∧
      (updateGameState 0 0 (⟨1, 225, -2, 0, 3, 185, 185, 0, 0, true, 0, false⟩ :
        GameState ℝ)).2.countdown = 3 := by
  have h := C3_scoring_and_completion.1 0 0
    (⟨1, 225, -2, 0, 3, 185, 185, 0, 0, true, 0, false⟩ : GameState ℝ) rfl (by norm_num)
  exact ⟨h.1, h.2.2.1, h.2.2.2.2.2.1⟩

/-- Claim C4 fails on the code: bounded motion does not guarantee an empty
delta, because a move as small as 0.002 can cross a 2-decimal rounding
boundary.  Here only ballX moves, from 0.004 to 0.006 (all other fields are
identical), yet the delta is non-empty since round2 0.004 = 0.00 while
round2 0.006 = 0.01. -/
theorem C4_counterexample :
    |(3 / 500 : ℚ) - 1 / 250| ≤ 1 / 100 ∧
      createDeltaState
          (some ⟨1 / 250, 225, 0, 0, 3, 185, 185, 0, 0, true, 0, false⟩)
          (⟨3 / 500, 225, 0, 0, 3, 185, 185, 0, 0, true, 0, false⟩ : GameState ℚ) ≠
        emptyDelta ℚ := by
  constructor
  · rw [show (3 / 500 : ℚ) - 1 / 250 = 1 / 500 by norm_num, abs_of_pos (by norm_num)]
    norm_num
  · intro h
    have hx := congrArg DeltaState.ballX h
    simp only [createDeltaState, emptyDelta] at hx
    have hc : round2 ((3 : ℚ) / 500) ≠ round2 ((1 : ℚ) / 250) := by
      norm_num [round2]
    rw [if_pos hc] at hx
    exact Option.noConfusion hx

/-- Claim C4 amended: after the first tick's full snapshot, a tick emits
exactly the fields whose compared values differ (continuous fields compared
after rounding to 2 decimals, discrete fields exactly); the delta is empty
exactly when every continuous field rounds to the same 2-decimal value and
every discrete field is unchanged — in particular when nothing moved at all.
Motion bounded by 0.01 is not sufficient, as a rounding boundary may be
crossed. -/
theorem C4_delta_empty_iff (prev cur : GameState ℚ) :
    createDeltaState none cur = fullDelta cur ∧
      (createDeltaState (some prev) cur = emptyDelta ℚ ↔
        (round2 cur.ballX = round2 prev.ballX ∧ round2 cur.ballY = round2 prev.ballY ∧
         round2 cur.ballVelX = round2 prev.ballVelX ∧
         round2 cur.ballVelY = round2 prev.ballVelY ∧
         round2 cur.ballSpeed = round2 prev.ballSpeed ∧
         round2 cur.player1PaddleY = round2 prev.player1PaddleY ∧
         round2 cur.player2PaddleY = round2 prev.player2PaddleY ∧
         cur.player1Score = prev.player1Score ∧ cur.player2Score = prev.player2Score ∧
         cur.gameStarted = prev.gameStarted ∧ cur.countdown = prev.countdown ∧
         cur.isCountingDown = prev.isCountingDown)) ∧
      (∀ s : GameState ℚ, createDeltaState (some s) s = emptyDelta ℚ) := by
  refine ⟨rfl, ?_, ?_⟩
  · simp only [createDeltaState, emptyDelta, DeltaState.mk.injEq, ite_eq_right_iff,
      reduceCtorEq, imp_false, not_not]
  · intro s
    simp [createDeltaState, emptyDelta]

/-- Witness for C4's amended statement: with an unchanged snapshot the delta
is empty. -/
theorem C4_delta_empty_iff_witness :
    createDeltaState
        (some (⟨400, 225, 3, 0, 3, 185, 185, 0, 0, true, 0, false⟩ : GameState ℚ))
        ⟨400, 225, 3, 0, 3, 185, 185, 0, 0, true, 0, false⟩ = emptyDelta ℚ :=
  (C4_delta_empty_iff ⟨400, 225, 3, 0, 3, 185, 185, 0, 0, true, 0, false⟩
    ⟨400, 225, 3, 0, 3, 185, 185, 0, 0, true, 0, false⟩).2.2
    ⟨400, 225, 3, 0, 3, 185, 185, 0, 0, true, 0, false⟩

/-- Claim C9: joinMatch on a missing id, an already-full match, or a match not
in the waiting state returns null and leaves the store unchanged; otherwise it
records the second player and moves the match from waiting to active. -/
theorem C9_joinMatch (store : MatchStore) (matchId sid w : String) (r : ℤ) :
    (lookupMatch store matchId = none → joinMatch store matchId sid w r = (none, store)) ∧
      (∀ m, lookupMatch store matchId = some m →
        m.player2.isSome ∨ m.status ≠ MatchStatus.waiting →
        joinMatch store matchId sid w r = (none, store)) ∧
      (∀ m, lookupMatch store matchId = some m → m.player2 = none →
        m.status = MatchStatus.waiting →
        joinMatch store matchId sid w r =
          (some { m with player2 := some ⟨sid, w, r⟩, status := MatchStatus.active },
           store.map (fun kv =>
            if kv.1 = matchId then
              (kv.1, { m with player2 := some ⟨sid, w, r⟩, status := MatchStatus.active })
            else kv))) := by
  refine ⟨?_, ?_, ?_⟩
  · intro h
    unfold joinMatch
    rw [h]
  · intro m hm hbad
    unfold joinMatch
    rw [hm]
    simp only [if_pos hbad]
  · intro m hm h2 hw
    have hcond : ¬(m.player2.isSome = true ∨ m.status ≠ MatchStatus.waiting) := by
      simp [h2, hw]
    unfold joinMatch
    rw [hm]
    simp only [if_neg hcond]

/-- Witness for C9: joining a missing match id on the empty store is a no-op
returning null. -/
theorem C9_joinMatch_witness : joinMatch [] "m1" "s2" "w2" 1000 = (none, []) :=
  (C9_joinMatch [] "m1" "s2" "w2" 1000).1 rfl

end BounceArena
